import Mathlib

/-!
# Verification of `Block.tsx` (streamlit front-end core Block renderer)

A shallow embedding of `src/frontend/src/components/core/Block/Block.tsx`:
the recursive report-element tree renderer.  Immutable.js collections become
Lean `List`s, Immutable maps with fixed key sets become structures, React
element trees become the inductive `RNode`, thrown exceptions become
`Except String`, and numeric widths become `Int`.

External collaborators that are part of the repository but are not in the
sources under verification (the `ReportRunState` enum, `dispatchOneOf` from
`lib/immutableProto`, `makeElementWithInfoText` from `lib/utils`, the
`FullScreenWrapper.isFullScreen` static flag, and the leaf renderer
components themselves) are modelled from the specification, as noted on
their definitions.
-/

namespace Streamlit

/-- Modelled from the spec: the run-state enum (`lib/ReportRunState`) is an
external collaborator; the Block code only distinguishes `RUNNING` and
`RERUN_REQUESTED` from the remaining states. -/
inductive ReportRunState where
  | notRunning
  | running
  | rerunRequested
  | compilationError
deriving DecidableEq, Repr

/-- Modelled from the spec: the widget-state manager is an external
collaborator; the Block code only passes it through unchanged, so it is an
opaque handle here. -/
structure WidgetStateManager where
  handle : Nat
deriving DecidableEq, Repr

/-- The `widgetProps` record built in `renderElement` (lines 220-223). -/
structure WidgetProps where
  widgetMgr : WidgetStateManager
  disabled : Bool
deriving DecidableEq, Repr

/-- `ForwardMsgMetadata.elementDimensionSpec` from the protobuf message:
the optional per-element width/height request. -/
structure ElementDimensionSpec where
  width : Int
  height : Int
deriving DecidableEq, Repr

/-- Per-message sizing metadata (`ForwardMsgMetadata` from `autogen/proto`),
restricted to the field the Block code reads. -/
structure ForwardMsgMetadata where
  elementDimensionSpec : Option ElementDimensionSpec
deriving DecidableEq, Repr

/-- A simple element: an immutable map carrying a `type` tag.  The rest of
the payload is opaque to `Block.tsx` (it is handed whole to the leaf
renderer); only the `type` tag and the widget `id` key are ever read here. -/
structure SimpleElement where
  type : String
  id : String
deriving DecidableEq, Repr

/-- The tagged union held under the `element` key of a report element:
either a block (an Immutable `List` of child report elements) or a simple
element (an Immutable `Map`).  `R` is instantiated with `ReportElement`. -/
inductive Element (R : Type) where
  | block (children : List R)
  | simple (el : SimpleElement)

/-- A report element (`lib/DeltaParser`): a map with keys `element`,
`reportId` and `metadata`. -/
inductive ReportElement where
  | mk (element : Element ReportElement) (reportId : String)
      (metadata : Option ForwardMsgMetadata)

/-- The `element` key of a report element. -/
def ReportElement.element : ReportElement → Element ReportElement
  | .mk e _ _ => e

/-- The `reportId` key of a report element. -/
def ReportElement.reportId : ReportElement → String
  | .mk _ rid _ => rid

/-- The `metadata` key of a report element. -/
def ReportElement.metadata : ReportElement → Option ForwardMsgMetadata
  | .mk _ _ md => md

/-- `BlockElement` from `lib/DeltaParser`: an ordered list of report
elements. -/
abbrev BlockElement := List ReportElement

/-- The props of the `Block` component (lines 74-81). -/
structure Props where
  elements : BlockElement
  reportId : String
  reportRunState : ReportRunState
  showStaleElementIndicator : Bool
  widgetMgr : WidgetStateManager
  widgetsDisabled : Bool

/-- Immutable.js `List.map` also hands the index to the callback; this is
the corresponding eager map-with-index on Lean lists. -/
def mapWithIndexAux (f : Nat → α → β) : Nat → List α → List β
  | _, [] => []
  | i, a :: as => f i a :: mapWithIndexAux f (i + 1) as

/-- Map with index, starting at `0` (Immutable.js `List.map`). -/
def mapWithIndex (f : Nat → α → β) (l : List α) : List β :=
  mapWithIndexAux f 0 l

theorem mapWithIndexAux_length (f : Nat → α → β) (n : Nat) (l : List α) :
    (mapWithIndexAux f n l).length = l.length := by
  induction l generalizing n with
  | nil => rfl
  | cons a as ih => simp [mapWithIndexAux, ih]

theorem mapWithIndex_length (f : Nat → α → β) (l : List α) :
    (mapWithIndex f l).length = l.length :=
  mapWithIndexAux_length f 0 l

theorem mapWithIndexAux_get (f : Nat → α → β) (l : List α) :
    ∀ (n i : Nat) (h1 : i < (mapWithIndexAux f n l).length)
      (h2 : i < l.length),
      (mapWithIndexAux f n l).get ⟨i, h1⟩ = f (n + i) (l.get ⟨i, h2⟩) := by
  induction l with
  | nil => intro n i h1 h2; simp at h2
  | cons a as ih =>
    intro n i h1 h2
    cases i with
    | zero => simp [mapWithIndexAux]
    | succ j =>
      have h1' : j < (mapWithIndexAux f (n + 1) as).length := by
        simp [mapWithIndexAux] at h1
        simpa [mapWithIndexAux_length] using h1
      have h2' : j < as.length := by simpa using h2
      have := ih (n + 1) j h1' h2'
      simpa [mapWithIndexAux, this, Nat.add_assoc, Nat.add_comm 1 j] using this

theorem mapWithIndex_get (f : Nat → α → β) (l : List α) (i : Nat)
    (h1 : i < (mapWithIndex f l).length) (h2 : i < l.length) :
    (mapWithIndex f l).get ⟨i, h1⟩ = f i (l.get ⟨i, h2⟩) := by
  simpa using mapWithIndexAux_get f l 0 i h1 h2

/-- `Block.getElements` (lines 106-130).  Note the JavaScript semantics made
explicit here: the callback closes over the local variable
`elementsToRender`, and because Immutable's `List.map` is eager the whole
map runs before the reassignment `elementsToRender = ...` completes, so
inside the callback `elementsToRender` still denotes `props.elements`.  The
fallback lookup `elementsToRender.get(index, reportElement)` is therefore a
lookup in `props.elements` itself (`List.getD` below). -/
def getElements (props : Props) : BlockElement :=
  let elementsToRender := props.elements
  if props.reportRunState = ReportRunState.running then
    mapWithIndex
      (fun index reportElement =>
        match reportElement.element with
        | .simple el =>
          if el.type = "empty" then elementsToRender.getD index reportElement
          else reportElement
        | .block _ => reportElement)
      props.elements
  else
    elementsToRender

/-- `getElements` never changes the element list: in the non-`RUNNING`
states it returns `props.elements` directly, and in the `RUNNING` state the
placeholder substitution looks each empty element up in `props.elements`
at its own index and so returns the very same element. -/
theorem getElements_eq (props : Props) : getElements props = props.elements := by
  unfold getElements
  split
  · apply List.ext_get
    · exact mapWithIndex_length _ _
    · intro i h1 h2
      rw [mapWithIndex_get _ _ i h1 h2]
      cases hel : (props.elements.get ⟨i, h2⟩).element with
      | block cs => simp
      | simple el =>
        simp only
        split
        · rw [List.getD_eq_getElem?_getD, List.getElem?_eq_getElem h2]
          simp [List.get_eq_getElem]
        · rfl
  · rfl

/-- The leaf renderer components imported by `Block.tsx` (lines 29-72):
one per supported type tag other than `empty`. -/
inductive LeafComponent where
  | alert | audio | balloons | bokehChart | chart | dataFrame
  | deckGlChart | docString | exceptionElement | graphvizChart | imageList
  | json | markdown | multiselect | plotlyChart | progress | table | text
  | vegaLiteChart | video | button | checkbox | dateInput | radio
  | selectbox | slider | textArea | textInput | timeInput | numberInput
deriving DecidableEq, Repr

/-- The props handed to a leaf renderer by the dispatch table
(lines 237-358): the element, the (possibly clamped) width, and — only for
the entries that pass them — a height, an index, a `key`, and the widget
props. -/
structure LeafArgs where
  element : SimpleElement
  width : Int
  height : Option Int
  index : Option Nat
  key : Option String
  widgetProps : Option WidgetProps
deriving DecidableEq, Repr

/-- The rendered output tree: the React nodes `Block` produces.  `blockDiv`
is the `stBlock` wrapper div around a nested `Block`, `emptyDiv` the bare
`stEmpty` placeholder, `elementContainer` the keyed per-element div,
`errorBoundary` and `suspense` the wrappers of lines 194-204,
`alertFallback` the `Loading...` alert, and `leaf` a leaf renderer
application. -/
inductive RNode where
  | blockDiv (key : Nat) (width : Int) (children : List RNode)
  | emptyDiv (key : Nat)
  | elementContainer (key : Nat) (className : String) (width : Int) (child : RNode)
  | errorBoundary (width : Int) (child : RNode)
  | suspense (fallback : RNode) (child : Option RNode)
  | alertFallback (text : String) (width : Int)
  | leaf (component : LeafComponent) (args : LeafArgs)

/-- The component a `leaf` node applies, if the node is a leaf. -/
def nodeComponent : RNode → Option LeafComponent
  | .leaf c _ => some c
  | _ => none

/-- `Block.isElementStale` (lines 132-142). -/
def isElementStale (props : Props) (reportElement : ReportElement) : Bool :=
  if props.reportRunState = ReportRunState.rerunRequested then
    true
  else if props.reportRunState = ReportRunState.running then
    reportElement.reportId != props.reportId
  else
    false

/-- The class-name computation of lines 183-191.  `fullScreen` is the
external static flag `FullScreenWrapper.isFullScreen`. -/
def elementClassName (props : Props) (fullScreen : Bool)
    (reportElement : ReportElement) : String :=
  let isStale := props.showStaleElementIndicator && isElementStale props reportElement
  if isStale && !fullScreen then "element-container stale-element"
  else "element-container"

/-- The width clamping of lines 227-231: when the message metadata carries a
dimension spec with positive width, the width becomes the minimum of the
spec width and the incoming (container) width. -/
def effectiveWidth (metadata : Option ForwardMsgMetadata) (width : Int) : Int :=
  match metadata with
  | some m =>
    match m.elementDimensionSpec with
    | some spec => if spec.width > 0 then min spec.width width else width
    | none => width
  | none => width

/-- The height selection of lines 232-234: a height is produced only when
the metadata carries a dimension spec with positive height. -/
def effectiveHeight (metadata : Option ForwardMsgMetadata) : Option Int :=
  match metadata with
  | some m =>
    match m.elementDimensionSpec with
    | some spec => if spec.height > 0 then some spec.height else none
    | none => none
  | none => none

/-- The dispatch table of lines 237-358, entry for entry and in source
order: a flat association from type tag to the function building the leaf
renderer node (`empty` maps to `undefined`, i.e. `none`). -/
def dispatchTable (index : Nat) (width : Int) (height : Option Int)
    (widgetProps : WidgetProps) : List (String × (SimpleElement → Option RNode)) :=
  [("alert", fun el => some (.leaf .alert ⟨el, width, none, none, none, none⟩)),
   ("audio", fun el => some (.leaf .audio ⟨el, width, none, none, none, none⟩)),
   ("balloons", fun el => some (.leaf .balloons ⟨el, width, none, none, none, none⟩)),
   ("bokehChart", fun el => some (.leaf .bokehChart ⟨el, width, none, some index, none, none⟩)),
   ("chart", fun el => some (.leaf .chart ⟨el, width, none, none, none, none⟩)),
   ("dataFrame", fun el => some (.leaf .dataFrame ⟨el, width, height, none, none, none⟩)),
   ("deckGlChart", fun el => some (.leaf .deckGlChart ⟨el, width, none, none, none, none⟩)),
   ("docString", fun el => some (.leaf .docString ⟨el, width, none, none, none, none⟩)),
   ("empty", fun _ => none),
   ("exception", fun el => some (.leaf .exceptionElement ⟨el, width, none, none, none, none⟩)),
   ("graphvizChart", fun el => some (.leaf .graphvizChart ⟨el, width, none, some index, none, none⟩)),
   ("imgs", fun el => some (.leaf .imageList ⟨el, width, none, none, none, none⟩)),
   ("json", fun el => some (.leaf .json ⟨el, width, none, none, none, none⟩)),
   ("markdown", fun el => some (.leaf .markdown ⟨el, width, none, none, none, none⟩)),
   ("multiselect", fun el => some (.leaf .multiselect ⟨el, width, none, none, some el.id, some widgetProps⟩)),
   ("plotlyChart", fun el => some (.leaf .plotlyChart ⟨el, width, none, none, none, none⟩)),
   ("progress", fun el => some (.leaf .progress ⟨el, width, none, none, none, none⟩)),
   ("table", fun el => some (.leaf .table ⟨el, width, none, none, none, none⟩)),
   ("text", fun el => some (.leaf .text ⟨el, width, none, none, none, none⟩)),
   ("vegaLiteChart", fun el => some (.leaf .vegaLiteChart ⟨el, width, none, none, none, none⟩)),
   ("video", fun el => some (.leaf .video ⟨el, width, none, none, none, none⟩)),
   ("button", fun el => some (.leaf .button ⟨el, width, none, none, none, some widgetProps⟩)),
   ("checkbox", fun el => some (.leaf .checkbox ⟨el, width, none, none, some el.id, some widgetProps⟩)),
   ("dateInput", fun el => some (.leaf .dateInput ⟨el, width, none, none, some el.id, some widgetProps⟩)),
   ("radio", fun el => some (.leaf .radio ⟨el, width, none, none, some el.id, some widgetProps⟩)),
   ("selectbox", fun el => some (.leaf .selectbox ⟨el, width, none, none, some el.id, some widgetProps⟩)),
   ("slider", fun el => some (.leaf .slider ⟨el, width, none, none, some el.id, some widgetProps⟩)),
   ("textArea", fun el => some (.leaf .textArea ⟨el, width, none, none, some el.id, some widgetProps⟩)),
   ("textInput", fun el => some (.leaf .textInput ⟨el, width, none, none, some el.id, some widgetProps⟩)),
   ("timeInput", fun el => some (.leaf .timeInput ⟨el, width, none, none, some el.id, some widgetProps⟩)),
   ("numberInput", fun el => some (.leaf .numberInput ⟨el, width, none, none, some el.id, some widgetProps⟩))]

/-- The type tags the dispatch table supports, in source order. -/
def supportedTags : List String :=
  ["alert", "audio", "balloons", "bokehChart", "chart", "dataFrame",
   "deckGlChart", "docString", "empty", "exception", "graphvizChart",
   "imgs", "json", "markdown", "multiselect", "plotlyChart", "progress",
   "table", "text", "vegaLiteChart", "video", "button", "checkbox",
   "dateInput", "radio", "selectbox", "slider", "textArea", "textInput",
   "timeInput", "numberInput"]

/-- The leaf component a type tag selects (`empty` and unknown tags select
none). -/
def componentOfTag : String → Option LeafComponent
  | "alert" => some .alert
  | "audio" => some .audio
  | "balloons" => some .balloons
  | "bokehChart" => some .bokehChart
  | "chart" => some .chart
  | "dataFrame" => some .dataFrame
  | "deckGlChart" => some .deckGlChart
  | "docString" => some .docString
  | "exception" => some .exceptionElement
  | "graphvizChart" => some .graphvizChart
  | "imgs" => some .imageList
  | "json" => some .json
  | "markdown" => some .markdown
  | "multiselect" => some .multiselect
  | "plotlyChart" => some .plotlyChart
  | "progress" => some .progress
  | "table" => some .table
  | "text" => some .text
  | "vegaLiteChart" => some .vegaLiteChart
  | "video" => some .video
  | "button" => some .button
  | "checkbox" => some .checkbox
  | "dateInput" => some .dateInput
  | "radio" => some .radio
  | "selectbox" => some .selectbox
  | "slider" => some .slider
  | "textArea" => some .textArea
  | "textInput" => some .textInput
  | "timeInput" => some .timeInput
  | "numberInput" => some .numberInput
  | _ => none

/-- Modelled from the spec: `dispatchOneOf` (`lib/immutableProto`) is not
among the sources under verification; per the spec the dispatch is a flat
switch on the element's `type` tag, so it is modelled as an association
lookup applying the selected entry, with a distinct error for a tag the
table does not carry. -/
def dispatchOneOf (el : SimpleElement)
    (funcs : List (String × (SimpleElement → Option RNode))) :
    Except String (Option RNode) :=
  match funcs.lookup el.type with
  | some f => .ok (f el)
  | none => .error "Cannot handle type."

/-- `Block.renderElement` (lines 210-359): a missing element payload is a
transmission error; otherwise the widget props and the clamped dimensions
are computed and the element is dispatched on its type tag. -/
def renderElement (props : Props) (element : Option SimpleElement)
    (index : Nat) (width : Int) (metadata : Option ForwardMsgMetadata) :
    Except String (Option RNode) :=
  match element with
  | none => .error "Transmission error."
  | some el =>
    let widgetProps : WidgetProps := ⟨props.widgetMgr, props.widgetsDisabled⟩
    let width := effectiveWidth metadata width
    let height := effectiveHeight metadata
    dispatchOneOf el (dispatchTable index width height widgetProps)

/-- `Block.renderElementWithErrorBoundary` (lines 163-208).  An `empty`
element renders as a bare `stEmpty` div; otherwise the dispatched component
is wrapped in the keyed container div, the error boundary and the suspense
node whose fallback is the `Loading...` alert (`makeElementWithInfoText`
is modelled from the spec as that placeholder alert).  On a block payload
the source would reach `dispatchOneOf` with an undefined tag, hence the
error branch; `renderElements` never takes that path. -/
def renderElementWithErrorBoundary (props : Props) (fullScreen : Bool)
    (reportElement : ReportElement) (index : Nat) (width : Int) :
    Except String RNode :=
  match reportElement.element with
  | .block _ => .error "Cannot handle type."
  | .simple el =>
    if el.type = "empty" then
      .ok (.emptyDiv index)
    else
      match renderElement props (some el) index width reportElement.metadata with
      | .error e => .error e
      | .ok component =>
        .ok (.elementContainer index (elementClassName props fullScreen reportElement)
          width
          (.errorBoundary width
            (.suspense (.alertFallback "Loading..." width) component)))

mutual

/-- One step of the map body of `Block.renderElements` (lines 90-102): a
block child is rendered through `Block.renderBlock` (lines 144-161), i.e.
as an `stBlock` div around a nested `Block` carrying the same props except
for `elements`; a simple element goes through the error-boundary wrapper.
The nested `Block`'s `render` again applies `getElements` to its own
props, which is spelled out here (`renderElements` below is this very
composition). -/
def renderOne (props : Props) (fullScreen : Bool) (re : ReportElement)
    (index : Nat) (width : Int) : Except String RNode :=
  match re with
  | .mk (.block children) _ _ =>
    (renderElementsAux { props with elements := children } fullScreen width 0
        (getElements { props with elements := children })).map
      (RNode.blockDiv index width)
  | .mk (.simple _) _ _ =>
    renderElementWithErrorBoundary props fullScreen re index width
termination_by sizeOf re
decreasing_by
  simp_wf
  rw [getElements_eq]
  simp
  omega

/-- The indexed traversal of `Block.renderElements` (lines 88-103): one
output node per input element, keyed by position.  The trailing
`.filter(node != null)` of line 103 is the identity here: no branch of the
source returns `null`, so it is not represented. -/
def renderElementsAux (props : Props) (fullScreen : Bool) (width : Int)
    (index : Nat) : List ReportElement → Except String (List RNode)
  | [] => .ok []
  | re :: rest => do
    let n ← renderOne props fullScreen re index width
    let ns ← renderElementsAux props fullScreen width (index + 1) rest
    pure (n :: ns)
termination_by l => sizeOf l
decreasing_by
  all_goals simp_wf
  all_goals omega

end

/-- `Block.renderElements` (lines 84-104): apply `getElements`, then map
each report element to a React node in order. -/
def renderElements (props : Props) (fullScreen : Bool) (width : Int) :
    Except String (List RNode) :=
  renderElementsAux props fullScreen width 0 (getElements props)

mutual

/-- Well-formedness of a report element: every simple element in the tree
carries a supported type tag.  Per the spec this invariant is owned by the
upstream message-decoding layer. -/
def WellFormedRE : ReportElement → Bool
  | .mk (.simple el) _ _ => decide (el.type ∈ supportedTags)
  | .mk (.block children) _ _ => WellFormedList children

/-- Well-formedness of a list of report elements. -/
def WellFormedList : List ReportElement → Bool
  | [] => true
  | re :: rest => WellFormedRE re && WellFormedList rest

end

mutual

/-- The output grammar of the renderer: a node is an `stEmpty` div, an
`stBlock` div over good children, or the exact error-boundary/suspense
wrapper around an optional leaf.  In particular a leaf renderer never
occurs outside that wrapper. -/
def GoodNode : RNode → Bool
  | .emptyDiv _ => true
  | .blockDiv _ _ children => GoodList children
  | .elementContainer _ _ _ child =>
    match child with
    | .errorBoundary _ (.suspense (.alertFallback _ _) comp) =>
      match comp with
      | none => true
      | some (.leaf _ _) => true
      | some _ => false
    | _ => false
  | _ => false

/-- `GoodNode`, pointwise over a list. -/
def GoodList : List RNode → Bool
  | [] => true
  | n :: rest => GoodNode n && GoodList rest

end

theorem mem_of_lookup_eq_some {β : Type} (l : List (String × β)) (t : String)
    (f : β) (h : l.lookup t = some f) : (t, f) ∈ l := by
  induction l with
  | nil => simp [List.lookup] at h
  | cons p rest ih =>
    obtain ⟨k, b⟩ := p
    simp only [List.lookup] at h
    by_cases hk : t = k
    · subst hk
      simp at h
      subst h
      exact List.mem_cons_self _ _
    · have hbeq : (t == k) = false := beq_false_of_ne hk
      rw [hbeq] at h
      exact List.mem_cons_of_mem _ (ih h)

theorem lookup_of_mem_keys {β : Type} (l : List (String × β)) (t : String)
    (h : t ∈ l.map Prod.fst) : ∃ f, l.lookup t = some f := by
  induction l with
  | nil => simp at h
  | cons p rest ih =>
    obtain ⟨k, b⟩ := p
    by_cases hk : t = k
    · subst hk
      exact ⟨b, by simp [List.lookup]⟩
    · have ht : t ∈ rest.map Prod.fst := by
        rcases List.mem_cons.mp h with h1 | h1
        · exact absurd h1 hk
        · exact h1
      obtain ⟨f, hf⟩ := ih ht
      exact ⟨f, by simp [List.lookup, beq_false_of_ne hk, hf]⟩

/-- The keys of the dispatch table are exactly the supported tags, whatever
the captured index, width, height and widget props. -/
theorem dispatchTable_keys (index : Nat) (width : Int) (height : Option Int)
    (wp : WidgetProps) :
    (dispatchTable index width height wp).map Prod.fst = supportedTags := rfl

/-- Characterization of any entry the dispatch table can return: the
`empty` entry yields no node, and every other entry yields a leaf node
whose component is determined by the tag alone, whose width is the width
the table captured, and whose height is absent or the captured height. -/
theorem dispatchTable_lookup_spec (index : Nat) (width : Int)
    (height : Option Int) (wp : WidgetProps) (t : String)
    (f : SimpleElement → Option RNode) (el : SimpleElement)
    (h : (dispatchTable index width height wp).lookup t = some f) :
    (t = "empty" ∧ f el = none ∧ componentOfTag t = none) ∨
    (∃ c a, f el = some (RNode.leaf c a) ∧ componentOfTag t = some c ∧
      a.width = width ∧ (a.height = none ∨ a.height = height)) := by
  have hmem := mem_of_lookup_eq_some _ _ _ h
  have hall : ∀ p ∈ dispatchTable index width height wp,
      (p.1 = "empty" ∧ p.2 el = none ∧ componentOfTag p.1 = none) ∨
      (∃ c a, p.2 el = some (RNode.leaf c a) ∧ componentOfTag p.1 = some c ∧
        a.width = width ∧ (a.height = none ∨ a.height = height)) := by
    intro p hp
    simp only [dispatchTable] at hp
    fin_cases hp
    all_goals first
      | (left; exact ⟨rfl, rfl, rfl⟩)
      | (right; exact ⟨_, _, rfl, rfl, rfl, Or.inr rfl⟩)
      | (right; exact ⟨_, _, rfl, rfl, rfl, Or.inl rfl⟩)
  exact hall (t, f) hmem

/-- Shape of any successful `renderElement` result on a present element:
either no node (the `empty` branch) or a leaf node carrying the clamped
width and, when present, the metadata height. -/
theorem renderElement_ok_shape (props : Props) (el : SimpleElement)
    (index : Nat) (width : Int) (md : Option ForwardMsgMetadata)
    (r : Option RNode)
    (h : renderElement props (some el) index width md = .ok r) :
    r = none ∨
    ∃ c a, r = some (RNode.leaf c a) ∧ componentOfTag el.type = some c ∧
      a.width = effectiveWidth md width ∧
      (a.height = none ∨ a.height = effectiveHeight md) := by
  simp only [renderElement, dispatchOneOf] at h
  cases hl : (dispatchTable index (effectiveWidth md width) (effectiveHeight md)
      ⟨props.widgetMgr, props.widgetsDisabled⟩).lookup el.type with
  | none => rw [hl] at h; exact absurd h (by simp)
  | some f =>
    rw [hl] at h
    simp at h
    subst h
    rcases dispatchTable_lookup_spec _ _ _ _ _ _ el hl with
      ⟨_, hfe, _⟩ | ⟨c, a, hfe, hc, hw, hh⟩
    · exact Or.inl hfe
    · exact Or.inr ⟨c, a, hfe, hc, hw, hh⟩

/-- On a present element with a supported tag, `renderElement` succeeds. -/
theorem renderElement_ok_of_supported (props : Props) (el : SimpleElement)
    (index : Nat) (width : Int) (md : Option ForwardMsgMetadata)
    (h : el.type ∈ supportedTags) :
    ∃ r, renderElement props (some el) index width md = .ok r := by
  obtain ⟨f, hf⟩ := lookup_of_mem_keys
    (dispatchTable index (effectiveWidth md width) (effectiveHeight md)
      ⟨props.widgetMgr, props.widgetsDisabled⟩) el.type
    (by rw [dispatchTable_keys]; exact h)
  exact ⟨f el, by simp [renderElement, dispatchOneOf, hf]⟩

/-- Shape of any successful `renderElementWithErrorBoundary` result: the
bare `stEmpty` div, or the container/boundary/suspense wrapper around an
optional leaf node. -/
theorem renderElementWithErrorBoundary_ok_shape (props : Props)
    (fullScreen : Bool) (re : ReportElement) (index : Nat) (width : Int)
    (n : RNode)
    (h : renderElementWithErrorBoundary props fullScreen re index width = .ok n) :
    n = RNode.emptyDiv index ∨
    ∃ cn comp, n = RNode.elementContainer index cn width
        (RNode.errorBoundary width
          (RNode.suspense (RNode.alertFallback "Loading..." width) comp)) ∧
      (comp = none ∨ ∃ c a, comp = some (RNode.leaf c a)) := by
  unfold renderElementWithErrorBoundary at h
  cases hel : re.element with
  | block cs => rw [hel] at h; exact absurd h (by simp)
  | simple el =>
    rw [hel] at h
    dsimp only at h
    by_cases hty : el.type = "empty"
    · rw [if_pos hty] at h
      simp at h
      exact Or.inl h.symm
    · rw [if_neg hty] at h
      cases hre : renderElement props (some el) index width re.metadata with
      | error e => rw [hre] at h; exact absurd h (by simp)
      | ok comp =>
        rw [hre] at h
        simp at h
        subst h
        refine Or.inr ⟨_, comp, rfl, ?_⟩
        rcases renderElement_ok_shape _ _ _ _ _ _ hre with hnone | ⟨c, a, hca, _⟩
        · exact Or.inl hnone
        · exact Or.inr ⟨c, a, hca⟩

/-- On a simple element with a supported tag,
`renderElementWithErrorBoundary` succeeds. -/
theorem renderElementWithErrorBoundary_ok_of_supported (props : Props)
    (fullScreen : Bool) (re : ReportElement) (index : Nat) (width : Int)
    (el : SimpleElement) (h1 : re.element = Element.simple el)
    (h2 : el.type ∈ supportedTags) :
    ∃ n, renderElementWithErrorBoundary props fullScreen re index width = .ok n := by
  unfold renderElementWithErrorBoundary
  rw [h1]
  dsimp only
  by_cases hty : el.type = "empty"
  · exact ⟨.emptyDiv index, by rw [if_pos hty]⟩
  · rw [if_neg hty]
    obtain ⟨r, hr⟩ := renderElement_ok_of_supported props el index width re.metadata h2
    rw [hr]
    exact ⟨_, rfl⟩

/-- Inversion of one step of `renderElementsAux`. -/
theorem renderElementsAux_cons_ok (props : Props) (fullScreen : Bool)
    (width : Int) (index : Nat) (re : ReportElement) (rest : List ReportElement)
    (ns : List RNode)
    (h : renderElementsAux props fullScreen width index (re :: rest) = .ok ns) :
    ∃ n rest2, renderOne props fullScreen re index width = .ok n ∧
      renderElementsAux props fullScreen width (index + 1) rest = .ok rest2 ∧
      ns = n :: rest2 := by
  rw [renderElementsAux] at h
  cases h1 : renderOne props fullScreen re index width with
  | error e => rw [h1] at h; exact absurd h (by simp [Bind.bind, Except.bind])
  | ok n =>
    rw [h1] at h
    cases h2 : renderElementsAux props fullScreen width (index + 1) rest with
    | error e => rw [h2] at h; exact absurd h (by simp [Bind.bind, Except.bind])
    | ok rest2 =>
      rw [h2] at h
      simp [Bind.bind, Except.bind, Pure.pure, Except.pure] at h
      exact ⟨n, rest2, rfl, rfl, h.symm⟩

/-- Totality and order preservation of the traversal on well-formed
element lists, by strong induction on the size of the list: the traversal
succeeds, returns one node per element, and its `j`-th node is the
rendering of the `j`-th element at key `index + j`. -/
theorem renderElementsAux_total : ∀ (k : Nat) (props : Props)
    (fullScreen : Bool) (width : Int) (index : Nat) (l : List ReportElement),
    sizeOf l ≤ k → WellFormedList l = true →
    ∃ ns, renderElementsAux props fullScreen width index l = .ok ns ∧
      ns.length = l.length ∧
      ∀ (j : Nat) (hj : j < l.length) (hj2 : j < ns.length),
        renderOne props fullScreen (l.get ⟨j, hj⟩) (index + j) width =
          .ok (ns.get ⟨j, hj2⟩) := by
  intro k
  induction k with
  | zero =>
    intro props fullScreen width index l hk _
    cases l with
    | nil => simp at hk
    | cons a as => simp at hk
  | succ k ih =>
    intro props fullScreen width index l hk hwf
    cases l with
    | nil =>
      refine ⟨[], by rw [renderElementsAux], rfl, ?_⟩
      intro j hj; simp at hj
    | cons re rest =>
      rw [WellFormedList] at hwf
      simp only [Bool.and_eq_true] at hwf
      obtain ⟨hwf1, hwf2⟩ := hwf
      -- the head renders
      have hhead : ∃ n, renderOne props fullScreen re index width = .ok n := by
        cases hre : re with
        | mk e rid md =>
          cases e with
          | block children =>
            have hwfc : WellFormedList children = true := by
              rw [hre] at hwf1; rw [WellFormedRE] at hwf1; exact hwf1
            have hszc : sizeOf children ≤ k := by
              rw [hre] at hk
              simp at hk
              omega
            obtain ⟨cns, hcns, _⟩ := ih { props with elements := children }
              fullScreen width 0 children hszc hwfc
            refine ⟨RNode.blockDiv index width cns, ?_⟩
            rw [renderOne]
            rw [getElements_eq]
            simp only
            rw [hcns]
            rfl
          | simple el =>
            have hsup : el.type ∈ supportedTags := by
              rw [hre] at hwf1; rw [WellFormedRE] at hwf1
              exact of_decide_eq_true hwf1
            obtain ⟨n, hn⟩ := renderElementWithErrorBoundary_ok_of_supported
              props fullScreen (ReportElement.mk (Element.simple el) rid md)
              index width el rfl hsup
            exact ⟨n, by rw [renderOne]; exact hn⟩
      obtain ⟨n, hn⟩ := hhead
      have hszr : sizeOf rest ≤ k := by
        cases re with
        | mk e rid md => simp at hk; omega
      obtain ⟨rest2, hrest2, hlen2, hget2⟩ :=
        ih props fullScreen width (index + 1) rest hszr hwf2
      refine ⟨n :: rest2, ?_, by simp [hlen2], ?_⟩
      · rw [renderElementsAux, hn, hrest2]
        rfl
      · intro j hj hj2
        cases j with
        | zero => simpa using hn
        | succ j2 =>
          have hj' : j2 < rest.length := by simpa using hj
          have hj2' : j2 < rest2.length := by simpa using hj2
          have := hget2 j2 hj' hj2'
          simpa [Nat.add_assoc, Nat.add_comm 1 j2] using this

/-- A successful `renderElementWithErrorBoundary` result is in the output
grammar. -/
theorem renderElementWithErrorBoundary_good (props : Props)
    (fullScreen : Bool) (re : ReportElement) (index : Nat) (width : Int)
    (n : RNode)
    (h : renderElementWithErrorBoundary props fullScreen re index width = .ok n) :
    GoodNode n = true := by
  rcases renderElementWithErrorBoundary_ok_shape _ _ _ _ _ _ h with
    hempty | ⟨cn, comp, hshape, hcomp⟩
  · subst hempty; rw [GoodNode]
  · subst hshape
    rcases hcomp with hnone | ⟨c, a, hca⟩
    · subst hnone; rw [GoodNode]
    · subst hca; rw [GoodNode]

/-- Every node list the traversal returns is in the output grammar: leaf
renderers occur only inside the error-boundary/suspense wrapper. -/
theorem renderElementsAux_good : ∀ (k : Nat) (props : Props)
    (fullScreen : Bool) (width : Int) (index : Nat) (l : List ReportElement)
    (ns : List RNode), sizeOf l ≤ k →
    renderElementsAux props fullScreen width index l = .ok ns →
    GoodList ns = true := by
  intro k
  induction k with
  | zero =>
    intro props fullScreen width index l ns hk _
    cases l with
    | nil => simp at hk
    | cons a as => simp at hk
  | succ k ih =>
    intro props fullScreen width index l ns hk h
    cases l with
    | nil =>
      rw [renderElementsAux] at h
      simp at h
      subst h
      rw [GoodList]
    | cons re rest =>
      obtain ⟨n, rest2, hn, hrest2, hns⟩ :=
        renderElementsAux_cons_ok _ _ _ _ _ _ _ h
      subst hns
      have hszr : sizeOf rest ≤ k := by
        cases re with
        | mk e rid md => simp at hk; omega
      have hgood2 : GoodList rest2 = true :=
        ih props fullScreen width (index + 1) rest rest2 hszr hrest2
      have hgood1 : GoodNode n = true := by
        cases hre : re with
        | mk e rid md =>
          cases e with
          | block children =>
            rw [hre, renderOne, getElements_eq] at hn
            simp only at hn
            cases hcns : renderElementsAux { props with elements := children }
                fullScreen width 0 children with
            | error e2 =>
              rw [hcns] at hn
              exact absurd hn (by simp [Except.map])
            | ok cns =>
              rw [hcns] at hn
              simp [Except.map] at hn
              have hszc : sizeOf children ≤ k := by
                rw [hre] at hk; simp at hk; omega
              have := ih { props with elements := children } fullScreen width 0
                children cns hszc hcns
              rw [← hn, GoodNode]
              exact this
          | simple el =>
            rw [hre, renderOne] at hn
            exact renderElementWithErrorBoundary_good _ _ _ _ _ _ hn
      rw [GoodList, hgood1, hgood2]
      rfl

/-! ## Concrete fixtures -/

/-- A report element holding `st.empty()` output from an earlier run. -/
def emptyElement : ReportElement :=
  .mk (.simple ⟨"empty", "e0"⟩) "oldReport" none

/-- A report element holding a text element. -/
def textElement : ReportElement :=
  .mk (.simple ⟨"text", "t0"⟩) "newReport" none

/-- Props of a report that is currently running, whose element list holds a
single `empty` element from the previous run. -/
def runningProps : Props :=
  ⟨[emptyElement], "newReport", .running, true, ⟨0⟩, false⟩

/-- Props of a report that is not running. -/
def stoppedProps : Props :=
  ⟨[textElement], "newReport", .notRunning, true, ⟨0⟩, false⟩

/-- Props of a report whose rerun was just requested. -/
def staleProps : Props :=
  ⟨[textElement], "newReport", .rerunRequested, true, ⟨0⟩, false⟩

/-- Metadata carrying a dimension spec with positive width and height. -/
def dfMetadata : ForwardMsgMetadata := ⟨some ⟨50, 30⟩⟩

/-! ## Claims -/

/-- C1: the claim states that while the report is RUNNING, `getElements`
replaces an `empty` element by the previous non-empty rendered element at
that index.  The code does not do this: the callback's `elementsToRender`
still denotes `props.elements` when the eager map runs (the reassignment
completes only afterwards), so the fallback lookup returns the empty
element itself and no previously rendered list is kept anywhere.  At the
concrete failing input the result still holds the `empty` element
unchanged. -/
theorem getElements_running_keeps_empty_element :
    runningProps.reportRunState = ReportRunState.running ∧
    emptyElement.element = Element.simple ⟨"empty", "e0"⟩ ∧
    getElements runningProps = [emptyElement] := by
  refine ⟨rfl, rfl, ?_⟩
  rfl

/-- C8: rendering never modifies the input tree — all embedded operations
are pure functions of their props — and in particular whenever the run
state is not `RUNNING`, `getElements` returns `props.elements` itself. -/
theorem getElements_id_when_not_running (props : Props)
    (h : props.reportRunState ≠ ReportRunState.running) :
    getElements props = props.elements := by
  unfold getElements
  rw [if_neg h]

theorem getElements_id_when_not_running_witness :
    stoppedProps.reportRunState ≠ ReportRunState.running ∧
    getElements stoppedProps = stoppedProps.elements :=
  ⟨by decide, getElements_id_when_not_running stoppedProps (by decide)⟩

/-- C9: `isElementStale` is true exactly when a rerun was requested, or the
report is running and the element's `reportId` differs from the current
one; and the stale CSS class is applied only when the stale-element
indicator is enabled and the full-screen flag is off. -/
theorem isElementStale_iff :
    (∀ (props : Props) (re : ReportElement),
      isElementStale props re = true ↔
        (props.reportRunState = ReportRunState.rerunRequested ∨
          (props.reportRunState = ReportRunState.running ∧
            re.reportId ≠ props.reportId))) ∧
    (∀ (props : Props) (fullScreen : Bool) (re : ReportElement),
      elementClassName props fullScreen re = "element-container stale-element" →
        props.showStaleElementIndicator = true ∧ fullScreen = false ∧
          isElementStale props re = true) := by
  constructor
  · intro props re
    unfold isElementStale
    cases hrs : props.reportRunState <;> simp [hrs, bne_iff_ne]
  · intro props fullScreen re h
    unfold elementClassName at h
    simp only at h
    split at h
    · rename_i hcond
      simp only [Bool.and_eq_true, Bool.not_eq_eq_eq_not, Bool.not_true] at hcond
      obtain ⟨⟨hshow, hstale⟩, hfs⟩ := hcond
      exact ⟨hshow, by simpa using hfs, hstale⟩
    · exact absurd h (by decide)

theorem isElementStale_iff_witness :
    staleProps.showStaleElementIndicator = true ∧ false = false ∧
      isElementStale staleProps textElement = true :=
  isElementStale_iff.2 staleProps false textElement rfl

/-- C10: a simple element of type `empty` renders as the bare `stEmpty`
placeholder div, with no boundary, suspense or stale indicator; the
`empty` entry of the dispatch table (which yields `undefined`, i.e. no
node) is never what `renderElementWithErrorBoundary` returns for it. -/
theorem empty_element_renders_bare_placeholder (props : Props)
    (fullScreen : Bool) (re : ReportElement) (index : Nat) (width : Int)
    (el : SimpleElement) (h1 : re.element = Element.simple el)
    (h2 : el.type = "empty") :
    renderElementWithErrorBoundary props fullScreen re index width =
      .ok (RNode.emptyDiv index) ∧
    ∀ (props2 : Props) (index2 : Nat) (width2 : Int)
      (md : Option ForwardMsgMetadata),
      renderElement props2 (some el) index2 width2 md = .ok none := by
  constructor
  · unfold renderElementWithErrorBoundary
    rw [h1]
    dsimp only
    rw [if_pos h2]
  · intro props2 index2 width2 md
    have hl : (dispatchTable index2 (effectiveWidth md width2)
        (effectiveHeight md)
        ⟨props2.widgetMgr, props2.widgetsDisabled⟩).lookup "empty" =
        some (fun _ => none) := rfl
    simp [renderElement, dispatchOneOf, h2, hl]

theorem empty_element_renders_bare_placeholder_witness :
    renderElementWithErrorBoundary runningProps false emptyElement 0 100 =
      .ok (RNode.emptyDiv 0) ∧
    renderElement runningProps (some ⟨"empty", "e0"⟩) 1 50 none = .ok none :=
  ⟨(empty_element_renders_bare_placeholder runningProps false emptyElement 0 100
      ⟨"empty", "e0"⟩ rfl rfl).1,
   (empty_element_renders_bare_placeholder runningProps false emptyElement 0 100
      ⟨"empty", "e0"⟩ rfl rfl).2 runningProps 1 50 none⟩

/-- C5: a node's payload is exactly one of the two union shapes — a block
(list of children) or a simple element — and the traversal takes the block
branch precisely on the former and the error-boundary branch precisely on
the latter. -/
theorem element_two_shapes (props : Props) (fullScreen : Bool)
    (re : ReportElement) (index : Nat) (width : Int) :
    ((∃ cs, re.element = Element.block cs) ∨
      (∃ el, re.element = Element.simple el)) ∧
    ¬((∃ cs, re.element = Element.block cs) ∧
      (∃ el, re.element = Element.simple el)) ∧
    (∀ cs, re.element = Element.block cs →
      renderOne props fullScreen re index width =
        (renderElements ⟨cs, props.reportId, props.reportRunState,
            props.showStaleElementIndicator, props.widgetMgr,
            props.widgetsDisabled⟩ fullScreen width).map
          (RNode.blockDiv index width)) ∧
    (∀ el, re.element = Element.simple el →
      renderOne props fullScreen re index width =
        renderElementWithErrorBoundary props fullScreen re index width) := by
  obtain ⟨e, rid, md⟩ := re
  cases e with
  | block cs =>
    refine ⟨Or.inl ⟨cs, rfl⟩, ?_, ?_, ?_⟩
    · rintro ⟨-, el, hel⟩
      simp [ReportElement.element] at hel
    · intro cs2 hcs2
      simp only [ReportElement.element, Element.block.injEq] at hcs2
      subst hcs2
      rw [renderOne]
      rfl
    · intro el hel
      simp [ReportElement.element] at hel
  | simple el =>
    refine ⟨Or.inr ⟨el, rfl⟩, ?_, ?_, ?_⟩
    · rintro ⟨⟨cs, hcs⟩, -⟩
      simp [ReportElement.element] at hcs
    · intro cs hcs
      simp [ReportElement.element] at hcs
    · intro el2 hel2
      rw [renderOne]

theorem element_two_shapes_witness :
    ((∃ cs, textElement.element = Element.block cs) ∨
      (∃ el, textElement.element = Element.simple el)) ∧
    renderOne stoppedProps false textElement 0 100 =
      renderElementWithErrorBoundary stoppedProps false textElement 0 100 :=
  ⟨(element_two_shapes stoppedProps false textElement 0 100).1,
   (element_two_shapes stoppedProps false textElement 0 100).2.2.2
     ⟨"text", "t0"⟩ rfl⟩

/-- C2: `renderElement` raises the `Transmission error.` failure exactly
when the element payload is missing, and on any present payload with a
supported type tag it returns successfully. -/
theorem renderElement_error_iff_missing (props : Props)
    (oe : Option SimpleElement) (index : Nat) (width : Int)
    (md : Option ForwardMsgMetadata) :
    (renderElement props oe index width md = .error "Transmission error." ↔
      oe = none) ∧
    (∀ el, oe = some el → el.type ∈ supportedTags →
      ∃ r, renderElement props oe index width md = .ok r) := by
  constructor
  · cases oe with
    | none => simp [renderElement]
    | some el =>
      simp only [renderElement]
      constructor
      · intro h
        exfalso
        unfold dispatchOneOf at h
        cases hl : (dispatchTable index (effectiveWidth md width)
            (effectiveHeight md)
            ⟨props.widgetMgr, props.widgetsDisabled⟩).lookup el.type with
        | some f => rw [hl] at h; exact absurd h (by simp)
        | none =>
          rw [hl] at h
          simp only [Except.error.injEq] at h
          exact absurd h (by decide)
      · intro h
        simp at h
  · intro el hoe hsup
    subst hoe
    exact renderElement_ok_of_supported props el index width md hsup

theorem renderElement_error_iff_missing_witness :
    (renderElement stoppedProps none 0 100 none =
        .error "Transmission error." ↔ (none : Option SimpleElement) = none) ∧
    ∃ r, renderElement stoppedProps (some ⟨"text", "t0"⟩) 0 100 none = .ok r :=
  ⟨(renderElement_error_iff_missing stoppedProps none 0 100 none).1,
   (renderElement_error_iff_missing stoppedProps (some ⟨"text", "t0"⟩) 0 100
      none).2 ⟨"text", "t0"⟩ rfl (by decide)⟩

/-- C7: the width handed to a leaf renderer never exceeds the container
width — with a positive spec width it is the minimum of spec width and
container width, otherwise the container width — and a height is handed
over only when the spec height is positive. -/
theorem leaf_width_clamped :
    (∀ (md : Option ForwardMsgMetadata) (width : Int),
      effectiveWidth md width ≤ width) ∧
    (∀ (m : ForwardMsgMetadata) (spec : ElementDimensionSpec) (width : Int),
      m.elementDimensionSpec = some spec → spec.width > 0 →
      effectiveWidth (some m) width = min spec.width width) ∧
    (∀ (md : Option ForwardMsgMetadata) (width : Int),
      (∀ m spec, md = some m → m.elementDimensionSpec = some spec →
        spec.width ≤ 0) →
      effectiveWidth md width = width) ∧
    (∀ (props : Props) (el : SimpleElement) (index : Nat) (width : Int)
      (md : Option ForwardMsgMetadata) (c : LeafComponent) (a : LeafArgs),
      renderElement props (some el) index width md =
        .ok (some (RNode.leaf c a)) →
      a.width = effectiveWidth md width ∧ a.width ≤ width ∧
      ∀ hh, a.height = some hh →
        ∃ m spec, md = some m ∧ m.elementDimensionSpec = some spec ∧
          spec.height > 0 ∧ hh = spec.height) := by
  have hle : ∀ (md : Option ForwardMsgMetadata) (width : Int),
      effectiveWidth md width ≤ width := by
    intro md width
    cases md with
    | none => simp [effectiveWidth]
    | some m =>
      cases hspec : m.elementDimensionSpec with
      | none => simp [effectiveWidth, hspec]
      | some spec =>
        simp only [effectiveWidth, hspec]
        split
        · exact min_le_right _ _
        · exact le_refl width
  have hheight : ∀ (md : Option ForwardMsgMetadata) (hh : Int),
      effectiveHeight md = some hh →
      ∃ m spec, md = some m ∧ m.elementDimensionSpec = some spec ∧
        spec.height > 0 ∧ hh = spec.height := by
    intro md hh h
    cases md with
    | none => exact absurd h (by simp [effectiveHeight])
    | some m =>
      cases hspec : m.elementDimensionSpec with
      | none =>
        rw [effectiveHeight] at h
        rw [hspec] at h
        exact absurd h (by simp)
      | some spec =>
        rw [effectiveHeight] at h
        rw [hspec] at h
        dsimp only at h
        split at h
        · rename_i hpos
          simp only [Option.some.injEq] at h
          exact ⟨m, spec, rfl, hspec, hpos, h.symm⟩
        · exact absurd h (by simp)
  refine ⟨hle, ?_, ?_, ?_⟩
  · intro m spec width hspec hpos
    simp [effectiveWidth, hspec, hpos]
  · intro md width h
    cases md with
    | none => simp [effectiveWidth]
    | some m =>
      cases hspec : m.elementDimensionSpec with
      | none => simp [effectiveWidth, hspec]
      | some spec =>
        simp only [effectiveWidth, hspec]
        rw [if_neg (by simpa using h m spec rfl hspec)]
  · intro props el index width md c a h
    rcases renderElement_ok_shape _ _ _ _ _ _ h with hnone | ⟨c2, a2, ha2, _, hw, hh⟩
    · simp at hnone
    · simp only [Option.some.injEq, RNode.leaf.injEq] at ha2
      obtain ⟨hc2, ha⟩ := ha2
      subst hc2
      subst ha
      refine ⟨hw, hw ▸ hle md width, ?_⟩
      intro hhv hhsome
      rcases hh with h0 | h0
      · rw [h0] at hhsome; exact absurd hhsome (by simp)
      · rw [h0] at hhsome
        exact hheight md hhv hhsome

theorem leaf_width_clamped_witness :
    (⟨⟨"dataFrame", "d0"⟩, effectiveWidth (some dfMetadata) 100,
        effectiveHeight (some dfMetadata), none, none, none⟩ : LeafArgs).width =
      effectiveWidth (some dfMetadata) 100 ∧
    (⟨⟨"dataFrame", "d0"⟩, effectiveWidth (some dfMetadata) 100,
        effectiveHeight (some dfMetadata), none, none, none⟩ : LeafArgs).width ≤ 100 ∧
    ∀ hh, (⟨⟨"dataFrame", "d0"⟩, effectiveWidth (some dfMetadata) 100,
        effectiveHeight (some dfMetadata), none, none, none⟩ : LeafArgs).height =
        some hh →
      ∃ m spec, some dfMetadata = some m ∧ m.elementDimensionSpec = some spec ∧
        spec.height > 0 ∧ hh = spec.height :=
  leaf_width_clamped.2.2.2 stoppedProps ⟨"dataFrame", "d0"⟩ 0 100
    (some dfMetadata) .dataFrame
    ⟨⟨"dataFrame", "d0"⟩, effectiveWidth (some dfMetadata) 100,
      effectiveHeight (some dfMetadata), none, none, none⟩ rfl

/-- C4: the dispatch is a flat table from type tag to leaf renderer: its
keys are exactly the supported tags (the twenty display tags of the claim
together with the widget tags), and the component an entry applies is a
function of the tag alone. -/
theorem dispatch_flat_table :
    (∀ (index : Nat) (width : Int) (height : Option Int) (wp : WidgetProps),
      (dispatchTable index width height wp).map Prod.fst = supportedTags) ∧
    supportedTags.Perm
      (["alert", "audio", "balloons", "bokehChart", "chart", "dataFrame",
        "deckGlChart", "docString", "empty", "exception", "graphvizChart",
        "imgs", "json", "markdown", "plotlyChart", "progress", "table",
        "text", "vegaLiteChart", "video"] ++
       ["multiselect", "button", "checkbox", "dateInput", "radio",
        "selectbox", "slider", "textArea", "textInput", "timeInput",
        "numberInput"]) ∧
    (∀ (index : Nat) (width : Int) (height : Option Int) (wp : WidgetProps)
      (t : String) (f : SimpleElement → Option RNode) (el : SimpleElement),
      (dispatchTable index width height wp).lookup t = some f →
      (f el).bind nodeComponent = componentOfTag t) := by
  refine ⟨dispatchTable_keys, by decide, ?_⟩
  intro index width height wp t f el h
  rcases dispatchTable_lookup_spec _ _ _ _ _ _ el h with
    ⟨_, hfe, hct⟩ | ⟨c, a, hfe, hct, _, _⟩
  · rw [hfe, hct]; rfl
  · rw [hfe, hct]; rfl

theorem dispatch_flat_table_witness :
    ((fun el => some (RNode.leaf .alert ⟨el, 100, none, none, none, none⟩))
        (⟨"text", "t0"⟩ : SimpleElement)).bind nodeComponent =
      componentOfTag "alert" :=
  dispatch_flat_table.2.2 0 100 none ⟨⟨0⟩, false⟩ "alert"
    (fun el => some (RNode.leaf .alert ⟨el, 100, none, none, none, none⟩))
    ⟨"text", "t0"⟩ rfl

/-- C3: on a well-formed tree, `renderElements` yields exactly one node per
input element, in input order: the `j`-th node of the output renders the
`j`-th input element, a block child as a nested `Block` over the child's
elements with the same `reportId`, run state, stale-indicator flag, widget
manager and disabled flag, and a simple element through the per-element
wrapper. -/
theorem renderElements_mirrors_tree (props : Props) (fullScreen : Bool)
    (width : Int) (h : WellFormedList props.elements = true) :
    ∃ ns, renderElements props fullScreen width = .ok ns ∧
      ns.length = props.elements.length ∧
      ∀ (j : Nat) (hj : j < props.elements.length) (hj2 : j < ns.length),
        (∀ children rid md,
          props.elements.get ⟨j, hj⟩ = .mk (Element.block children) rid md →
          ∃ cns, renderElements ⟨children, props.reportId, props.reportRunState,
              props.showStaleElementIndicator, props.widgetMgr,
              props.widgetsDisabled⟩ fullScreen width = .ok cns ∧
            ns.get ⟨j, hj2⟩ = RNode.blockDiv j width cns) ∧
        (∀ el rid md,
          props.elements.get ⟨j, hj⟩ = .mk (Element.simple el) rid md →
          renderElementWithErrorBoundary props fullScreen
              (props.elements.get ⟨j, hj⟩) j width =
            .ok (ns.get ⟨j, hj2⟩)) := by
  obtain ⟨ns, hns, hlen, hget⟩ := renderElementsAux_total (sizeOf props.elements)
    props fullScreen width 0 props.elements le_rfl h
  refine ⟨ns, ?_, hlen, ?_⟩
  · rw [renderElements, getElements_eq]
    exact hns
  · intro j hj hj2
    have hrj := hget j hj hj2
    rw [Nat.zero_add] at hrj
    constructor
    · intro children rid md hjel
      rw [hjel, renderOne, getElements_eq] at hrj
      simp only at hrj
      cases hcns : renderElementsAux { props with elements := children }
          fullScreen width 0 children with
      | error e =>
        rw [hcns] at hrj
        exact absurd hrj (by simp [Except.map])
      | ok cns =>
        rw [hcns] at hrj
        simp only [Except.map, Except.ok.injEq] at hrj
        refine ⟨cns, ?_, hrj.symm⟩
        have hre : renderElements ⟨children, props.reportId,
            props.reportRunState, props.showStaleElementIndicator,
            props.widgetMgr, props.widgetsDisabled⟩ fullScreen width =
            renderElementsAux { props with elements := children } fullScreen
              width 0 (getElements { props with elements := children }) := rfl
        rw [hre, getElements_eq]
        exact hcns
    · intro el rid md hjel
      rw [hjel] at hrj ⊢
      rw [renderOne] at hrj
      exact hrj

/-- A well-formed one-element fixture list. -/
theorem renderElements_mirrors_tree_witness :
    WellFormedList stoppedProps.elements = true ∧
    ∃ ns, renderElements stoppedProps false 100 = .ok ns ∧
      ns.length = stoppedProps.elements.length ∧
      ∀ (j : Nat) (hj : j < stoppedProps.elements.length)
        (hj2 : j < ns.length),
        (∀ children rid md,
          stoppedProps.elements.get ⟨j, hj⟩ =
            .mk (Element.block children) rid md →
          ∃ cns, renderElements ⟨children, stoppedProps.reportId,
              stoppedProps.reportRunState,
              stoppedProps.showStaleElementIndicator, stoppedProps.widgetMgr,
              stoppedProps.widgetsDisabled⟩ false 100 = .ok cns ∧
            ns.get ⟨j, hj2⟩ = RNode.blockDiv j 100 cns) ∧
        (∀ el rid md,
          stoppedProps.elements.get ⟨j, hj⟩ =
            .mk (Element.simple el) rid md →
          renderElementWithErrorBoundary stoppedProps false
              (stoppedProps.elements.get ⟨j, hj⟩) j 100 =
            .ok (ns.get ⟨j, hj2⟩)) := by
  have hwf : WellFormedList stoppedProps.elements = true := by
    simp only [stoppedProps, textElement]
    rw [WellFormedList, WellFormedRE, WellFormedList]
    simp [supportedTags]
  exact ⟨hwf, renderElements_mirrors_tree stoppedProps false 100 hwf⟩

/-- C6: a simple element that is not `empty` always renders as the keyed
container wrapping an error boundary around a suspense node whose fallback
is the `Loading...` placeholder alert; and every node list `renderElements`
produces lies in the output grammar `GoodList`, in which a leaf renderer
only ever occurs as the suspense child of such a wrapper. -/
theorem leaf_renderers_always_wrapped :
    (∀ (props : Props) (fullScreen : Bool) (re : ReportElement) (index : Nat)
      (width : Int) (el : SimpleElement) (n : RNode),
      re.element = Element.simple el → el.type ≠ "empty" →
      renderElementWithErrorBoundary props fullScreen re index width = .ok n →
      ∃ cn comp, n = RNode.elementContainer index cn width
          (RNode.errorBoundary width
            (RNode.suspense (RNode.alertFallback "Loading..." width) comp)) ∧
        (comp = none ∨ ∃ c a, comp = some (RNode.leaf c a))) ∧
    (∀ (props : Props) (fullScreen : Bool) (width : Int) (ns : List RNode),
      renderElements props fullScreen width = .ok ns →
      GoodList ns = true) := by
  constructor
  · intro props fullScreen re index width el n h1 h2 h
    unfold renderElementWithErrorBoundary at h
    rw [h1] at h
    dsimp only at h
    rw [if_neg h2] at h
    cases hre : renderElement props (some el) index width re.metadata with
    | error e =>
      rw [hre] at h
      exact absurd h (by simp)
    | ok comp =>
      rw [hre] at h
      simp only [Except.ok.injEq] at h
      refine ⟨elementClassName props fullScreen re, comp, h.symm, ?_⟩
      rcases renderElement_ok_shape _ _ _ _ _ _ hre with hnone | ⟨c, a, hca, _⟩
      · exact Or.inl hnone
      · exact Or.inr ⟨c, a, hca⟩
  · intro props fullScreen width ns h
    rw [renderElements] at h
    exact renderElementsAux_good (sizeOf (getElements props)) props fullScreen
      width 0 (getElements props) ns le_rfl h

theorem leaf_renderers_always_wrapped_witness :
    (∃ cn comp,
      RNode.elementContainer 0 (elementClassName stoppedProps false textElement)
          100 (RNode.errorBoundary 100
            (RNode.suspense (RNode.alertFallback "Loading..." 100)
              (some (RNode.leaf .text
                ⟨⟨"text", "t0"⟩, 100, none, none, none, none⟩)))) =
        RNode.elementContainer 0 cn 100
          (RNode.errorBoundary 100
            (RNode.suspense (RNode.alertFallback "Loading..." 100) comp)) ∧
        (comp = none ∨ ∃ c a, comp = some (RNode.leaf c a))) ∧
    GoodList [] = true :=
  ⟨leaf_renderers_always_wrapped.1 stoppedProps false textElement 0 100
      ⟨"text", "t0"⟩
      (RNode.elementContainer 0 (elementClassName stoppedProps false textElement)
        100 (RNode.errorBoundary 100
          (RNode.suspense (RNode.alertFallback "Loading..." 100)
            (some (RNode.leaf .text
              ⟨⟨"text", "t0"⟩, 100, none, none, none, none⟩)))))
      rfl (by decide) rfl,
   leaf_renderers_always_wrapped.2
     ⟨[], "newReport", .notRunning, true, ⟨0⟩, false⟩ false 100 [] (by
       rw [renderElements]
       show renderElementsAux ⟨[], "newReport", .notRunning, true, ⟨0⟩, false⟩
         false 100 0 [] = Except.ok []
       rw [renderElementsAux])⟩

end Streamlit
